import Mathlib

/-!
Shallow embedding of the status-history core of the repository
(`status/status_history.go`): the filter validator, the sliding-window
`push` primitive, the cycle-squashing compactor `SquashLogs`, and the
`HistoryKind` enumeration.  Go machine integers are modelled as `Int`
(no overflow is reachable here), `time.Time` and `time.Duration` values
as `Int`, Go runtime panics and divergence as `Option`-failures.
-/

namespace StatusHistory

/-- Modelled from the spec: the `Status` type is declared elsewhere in the
`status` package, outside the given sources; the spec describes it as "an
enumerated status value (domain-specific life-cycle state, e.g. 'idle',
'executing', 'error')".  Only equality on it is used by this core, so we
model it as a string (in the Go package it is `type Status string`). -/
abbrev Status := String

/-- Modelled from the spec: the `Idle` status constant used for the
synthetic repetition marker (spec: "`status` = idle/quiescent"). -/
def Idle : Status := "idle"

/-- `type HistoryKind string`. -/
abbrev HistoryKind := String

/-- KindUnit represents agent and workload combined. -/
def KindUnit : HistoryKind := "unit"

/-- KindUnitAgent represents a unit agent status history entry. -/
def KindUnitAgent : HistoryKind := "juju-unit"

/-- KindWorkload represents a charm workload status history entry. -/
def KindWorkload : HistoryKind := "workload"

/-- KindMachineInstance represents an entry for a machine instance. -/
def KindMachineInstance : HistoryKind := "machine"

/-- KindMachine represents an entry for a machine agent. -/
def KindMachine : HistoryKind := "juju-machine"

/-- KindContainerInstance represents an entry for a container instance. -/
def KindContainerInstance : HistoryKind := "container"

/-- KindContainer represents an entry for a container agent. -/
def KindContainer : HistoryKind := "juju-container"

/-- `DetailedStatus` holds status info about a machine or unit agent.
`Data map[string]interface{}` is modelled as an association list with
string payloads (it is never consulted by this core), `Since *time.Time`
as `Option Int`, `Err error` as `Option String`. -/
structure DetailedStatus where
  Status : Status
  Info : String
  Data : List (String × String)
  Since : Option Int
  Kind : HistoryKind
  Version : String
  Life : String
  Err : Option String
  deriving DecidableEq

/-- `History` holds many `DetailedStatus`. -/
abbrev History := List DetailedStatus

/-- `(h *History) push(new)`: take the element at index 0 out, shift every
other element one position toward index 0 (the Go loop `ch[i] = ch[i+1]`
for `i < len(ch)-1`), write `new` into the last slot (`ch[len(ch)-1] = new`),
and return the evicted element; on `old :: rest` this leaves `rest ++ [new]`.
The Go code reads `ch[0]` unconditionally, so an empty window is a runtime
fault (index out of range), modelled as `none`. -/
def push (h : History) (new : DetailedStatus) : Option (DetailedStatus × History) :=
  match h with
  | [] => none
  | old :: rest => some (old, rest ++ [new])

/-- One comparison of the repetition check: `subset[j].Status != buffer[j].Status
|| subset[j].Info != buffer[j].Info` clears the `repetition` flag, so the pair
supports repetition iff `Status` and `Info` both match. -/
def sameStatusInfo (a b : DetailedStatus) : Bool :=
  a.Status == b.Status && a.Info == b.Info

/-- The repetition check of `SquashLogs`: `repetition` starts `true` and is
cleared by any position where `subset` and `buffer` disagree on `Status` or
`Info`.  In the Go code `subset` and `buffer` always both have length
`cycleSize`, so the element-wise walk is a zip. -/
def isRepetition (subset buffer : History) : Bool :=
  (List.zip subset buffer).all fun p => sameStatusInfo p.1 p.2

/-- The synthetic repetition marker appended by `SquashLogs`: status `Idle`,
info `fmt.Sprintf("last %d statuses repeated %d times", cycleSize, repeat)`,
`Since = &now` where `now` is the single `time.Now()` captured at the start
of the call, and every other field left at its Go zero value. -/
def repeatRecord (now : Int) (cycleSize : Int) (rep : Nat) : DetailedStatus :=
  { Status := Idle
    Info := "last " ++ toString cycleSize ++ " statuses repeated " ++ toString rep ++ " times"
    Data := []
    Since := some now
    Kind := ""
    Version := ""
    Life := ""
    Err := none }

/-- Go slicing `l[lo:hi]`: defined when `0 ≤ lo ≤ hi ≤ len(l)`, otherwise a
runtime fault ("slice bounds out of range"), modelled as `none`. -/
def goSlice (l : History) (lo hi : Int) : Option History :=
  if 0 ≤ lo ∧ lo ≤ hi ∧ hi ≤ (l.length : Int) then
    some ((l.drop lo.toNat).take (hi - lo).toNat)
  else none

/-- The flush loop of `SquashLogs`
(`for j := 0; j < cycleSize; j++ { result = append(result, buffer.push(subset[j])) }`):
push every record of `subset` (which has length `cycleSize`, the loop bound)
through `buffer` in order, collecting the evicted records in order. -/
def pushAll (buffer : History) (subset : History) : Option (History × History) :=
  match subset with
  | [] => some ([], buffer)
  | s :: rest =>
    match push buffer s with
    | none => none
    | some (old, buffer₁) =>
      match pushAll buffer₁ rest with
      | none => none
      | some (evicted, buffer₂) => some (old :: evicted, buffer₂)

/-- The mutable state of the `SquashLogs` loop: the rolling `buffer`, the
`result` accumulator, the `repeat` counter and the loop index `i`. -/
structure WalkState where
  buffer : History
  result : History
  rep : Nat
  i : Int
  deriving DecidableEq

/-- Outcome of the `SquashLogs` loop: normal exit (through the loop condition
or the `break`) carrying the final state, or a Go runtime fault. -/
inductive WalkOut where
  | ok (st : WalkState)
  | fault (msg : String)
  deriving DecidableEq

/-- The main loop of `SquashLogs`
(`for i = cycleSize; i < len(statuses); { ... }`), run with explicit fuel:
`some (.ok st)` when the loop exits, `some (.fault _)` when the Go code would
panic, and `none` when the fuel runs out before the loop exits (with
`cycleSize = 0` on a non-empty remainder the Go loop runs forever, so no
amount of fuel reaches an exit). -/
def squashWalk (now : Int) (statuses : History) (cycleSize : Int) :
    Nat → WalkState → Option WalkOut
  | 0, _ => none
  | fuel + 1, st =>
    if st.i < (statuses.length : Int) then
      if st.i + cycleSize > (statuses.length : Int) then
        some (.ok st)
      else
        match goSlice statuses st.i (st.i + cycleSize) with
        | none => some (.fault "slice bounds out of range")
        | some subset =>
          if isRepetition subset st.buffer then
            squashWalk now statuses cycleSize fuel
              { st with rep := st.rep + 1, i := st.i + cycleSize }
          else if 0 < st.rep then
            match pushAll st.buffer subset with
            | none => some (.fault "index out of range")
            | some (evicted, buffer₁) =>
              squashWalk now statuses cycleSize fuel
                { buffer := buffer₁
                  result := st.result ++ evicted ++ [repeatRecord now cycleSize st.rep]
                  rep := 0
                  i := st.i + cycleSize }
          else
            match statuses[st.i.toNat]? with
            | none => some (.fault "index out of range")
            | some cur =>
              match push st.buffer cur with
              | none => some (.fault "index out of range")
              | some (old, buffer₁) =>
                squashWalk now statuses cycleSize fuel
                  { buffer := buffer₁
                    result := st.result ++ [old]
                    rep := st.rep
                    i := st.i + 1 }
    else
      some (.ok st)

/-- `SquashLogs(cycleSize)`: short-circuit when `len(statuses) <= cycleSize`;
otherwise seed the buffer with the first `cycleSize` records, run the walk,
then flush the buffer (the Go loop appends `buffer[0] .. buffer[cycleSize-1]`,
i.e. the whole buffer, whose length is invariantly `cycleSize`), append a
final repetition marker if `repeat > 0`, and append `statuses[i+1:]` when
`i < len(statuses)-1`.  `now` is the `time.Now()` value captured at the start
of the call.  `none` models a run that panics or never terminates (the walk
advances `i` by at least 1 per step when `cycleSize ≥ 1`, so `length + 1`
fuel is then always enough). -/
def SquashLogs (now : Int) (statuses : History) (cycleSize : Int) : Option History :=
  if (statuses.length : Int) ≤ cycleSize then
    some statuses
  else
    match squashWalk now statuses cycleSize (statuses.length + 1)
        { buffer := statuses.take cycleSize.toNat, result := [], rep := 0, i := cycleSize } with
    | none => none
    | some (.fault _) => none
    | some (.ok st) =>
      let flushed := st.result ++ st.buffer
      let withMarker :=
        if 0 < st.rep then flushed ++ [repeatRecord now cycleSize st.rep] else flushed
      some (if st.i < (statuses.length : Int) - 1 then
              withMarker ++ statuses.drop (st.i + 1).toNat
            else withMarker)

/-- The error value produced by `errors.NotValidf`. -/
inductive GoError where
  | notValid (msg : String)
  deriving DecidableEq

/-- `StatusHistoryFilter` holds arguments that can be used to filter a status
history backlog; `Exclude set.Strings` is modelled as a list of strings. -/
structure StatusHistoryFilter where
  Size : Int
  FromDate : Option Int
  Delta : Option Int
  Exclude : List String
  deriving DecidableEq

/-- `Validate` checks that the minimum requirements of a
`StatusHistoryFilter` are met: `s := f.Size > 0`, `t := f.FromDate != nil`,
`d := f.Delta != nil`, then the Go `switch` over the four failing
combinations; `none` is success. -/
def Validate (f : StatusHistoryFilter) : Option GoError :=
  let s : Bool := decide (0 < f.Size)
  let t : Bool := f.FromDate.isSome
  let d : Bool := f.Delta.isSome
  if !(s || t || d) then some (.notValid "missing filter parameters")
  else if s && t then some (.notValid "Size and Date together")
  else if s && d then some (.notValid "Size and Delta together")
  else if t && d then some (.notValid "Date and Delta together")
  else none

/-- `(k HistoryKind) Valid()`: the Go `switch` listing the seven valid kinds
is a chain of equality tests. -/
def HistoryKind.Valid (k : HistoryKind) : Bool :=
  k == KindUnit || k == KindUnitAgent || k == KindWorkload ||
    k == KindMachineInstance || k == KindMachine ||
    k == KindContainerInstance || k == KindContainer

/-- `AllHistoryKind()` returns all valid `HistoryKind`s with their
descriptions; the Go `map[HistoryKind]string` literal is modelled as an
association list in source order. -/
def AllHistoryKind : List (HistoryKind × String) :=
  [(KindUnit, "statuses for specified unit and its workload"),
   (KindUnitAgent, "statuses from the agent that is managing a unit"),
   (KindWorkload, "statuses for unit\x27s workload"),
   (KindMachineInstance, "statuses that occur due to provisioning of a machine"),
   (KindMachine, "status of the agent that is managing a machine"),
   (KindContainerInstance, "statuses from the agent that is managing containers"),
   (KindContainer, "statuses from the containers only and not their host machines")]

/-- A concrete record constructor for test inputs: the given status, info and
timestamp, everything else at its zero value. -/
def mkRec (st : Status) (info : String) (since : Option Int) : DetailedStatus :=
  { Status := st
    Info := info
    Data := []
    Since := since
    Kind := ""
    Version := ""
    Life := ""
    Err := none }

/-! ### Unfolding lemmas for the walk, one per branch of the loop body -/

/-- The loop exits through its condition `i < len(statuses)` failing. -/
lemma squashWalk_done (now : Int) (statuses : History) (c : Int) (fuel : Nat)
    (st : WalkState) (h1 : ¬ st.i < (statuses.length : Int)) :
    squashWalk now statuses c (fuel + 1) st = some (.ok st) := by
  simp [squashWalk, h1]

/-- The loop exits through the `break` when fewer than `cycleSize` records
remain past `i`. -/
lemma squashWalk_break (now : Int) (statuses : History) (c : Int) (fuel : Nat)
    (st : WalkState) (h1 : st.i < (statuses.length : Int))
    (h2 : st.i + c > (statuses.length : Int)) :
    squashWalk now statuses c (fuel + 1) st = some (.ok st) := by
  simp [squashWalk, h1, h2]

/-- The chunk matches the buffer: count the repetition and advance a chunk. -/
lemma squashWalk_rep (now : Int) (statuses : History) (c : Int) (fuel : Nat)
    (st : WalkState) (subset : History)
    (h1 : st.i < (statuses.length : Int))
    (h2 : ¬ st.i + c > (statuses.length : Int))
    (hs : goSlice statuses st.i (st.i + c) = some subset)
    (h4 : isRepetition subset st.buffer = true) :
    squashWalk now statuses c (fuel + 1) st =
      squashWalk now statuses c fuel { st with rep := st.rep + 1, i := st.i + c } := by
  simp [squashWalk, h1, h2, hs, h4]

/-- The chunk does not match while repetitions are pending: push the chunk
through the buffer, emit the evicted records and one marker, reset `repeat`. -/
lemma squashWalk_flush (now : Int) (statuses : History) (c : Int) (fuel : Nat)
    (st : WalkState) (subset evicted buffer₁ : History)
    (h1 : st.i < (statuses.length : Int))
    (h2 : ¬ st.i + c > (statuses.length : Int))
    (hs : goSlice statuses st.i (st.i + c) = some subset)
    (h4 : isRepetition subset st.buffer = false)
    (h5 : 0 < st.rep)
    (hp : pushAll st.buffer subset = some (evicted, buffer₁)) :
    squashWalk now statuses c (fuel + 1) st =
      squashWalk now statuses c fuel
        { buffer := buffer₁
          result := st.result ++ evicted ++ [repeatRecord now c st.rep]
          rep := 0
          i := st.i + c } := by
  simp [squashWalk, h1, h2, hs, h4, h5, hp]

/-- The chunk does not match and no repetitions are pending: push the single
record at `i` through the buffer and advance by one. -/
lemma squashWalk_push (now : Int) (statuses : History) (c : Int) (fuel : Nat)
    (st : WalkState) (subset : History) (cur old : DetailedStatus) (buffer₁ : History)
    (h1 : st.i < (statuses.length : Int))
    (h2 : ¬ st.i + c > (statuses.length : Int))
    (hs : goSlice statuses st.i (st.i + c) = some subset)
    (h4 : isRepetition subset st.buffer = false)
    (h5 : st.rep = 0)
    (hg : statuses[st.i.toNat]? = some cur)
    (hp : push st.buffer cur = some (old, buffer₁)) :
    squashWalk now statuses c (fuel + 1) st =
      squashWalk now statuses c fuel
        { buffer := buffer₁
          result := st.result ++ [old]
          rep := st.rep
          i := st.i + 1 } := by
  simp [squashWalk, h1, h2, hs, h4, h5, hg, hp]

/-! ### Membership facts: where the records in the output come from -/

/-- The record evicted by `push` comes from the window; every record of the
new window comes from the old window or is the pushed record. -/
lemma push_mem (buffer : History) (s old : DetailedStatus) (buffer₁ : History)
    (h : push buffer s = some (old, buffer₁)) :
    old ∈ buffer ∧ ∀ r ∈ buffer₁, r ∈ buffer ∨ r = s := by
  cases buffer with
  | nil => simp [push] at h
  | cons a rest =>
    simp only [push, Option.some.injEq, Prod.mk.injEq] at h
    obtain ⟨h1, h2⟩ := h
    subst h1
    subst h2
    refine ⟨List.mem_cons_self a rest, ?_⟩
    intro r hr
    rcases List.mem_append.1 hr with hr | hr
    · exact Or.inl (List.mem_cons_of_mem _ hr)
    · simp only [List.mem_singleton] at hr
      exact Or.inr hr

/-- Every record evicted by the flush loop, and every record of the buffer it
leaves behind, comes from the old buffer or from the pushed chunk. -/
lemma pushAll_mem (subset : History) : ∀ buffer evicted buffer₂ : History,
    pushAll buffer subset = some (evicted, buffer₂) →
    (∀ r ∈ evicted, r ∈ buffer ∨ r ∈ subset) ∧
    (∀ r ∈ buffer₂, r ∈ buffer ∨ r ∈ subset) := by
  induction subset with
  | nil =>
    intro buffer evicted buffer₂ h
    simp only [pushAll, Option.some.injEq, Prod.mk.injEq] at h
    obtain ⟨h1, h2⟩ := h
    subst h1
    subst h2
    exact ⟨by simp, fun r hr => Or.inl hr⟩
  | cons s rest ih =>
    intro buffer evicted buffer₂ h
    simp only [pushAll] at h
    split at h
    · exact absurd h (by simp)
    · rename_i old buffer₁ hp
      split at h
      · exact absurd h (by simp)
      · rename_i evicted₁ buffer₂' hq
        simp only [Option.some.injEq, Prod.mk.injEq] at h
        obtain ⟨h1, h2⟩ := h
        subst h1
        subst h2
        obtain ⟨hold, hbuf₁⟩ := push_mem buffer s old buffer₁ hp
        obtain ⟨hev, hbuf₂⟩ := ih buffer₁ evicted₁ buffer₂' hq
        constructor
        · intro r hr
          rcases List.mem_cons.1 hr with hr | hr
          · exact Or.inl (hr ▸ hold)
          · rcases hev r hr with hr' | hr'
            · rcases hbuf₁ r hr' with hr'' | hr''
              · exact Or.inl hr''
              · exact Or.inr (hr'' ▸ List.mem_cons_self s rest)
            · exact Or.inr (List.mem_cons_of_mem _ hr')
        · intro r hr
          rcases hbuf₂ r hr with hr' | hr'
          · rcases hbuf₁ r hr' with hr'' | hr''
            · exact Or.inl hr''
            · exact Or.inr (hr'' ▸ List.mem_cons_self s rest)
          · exact Or.inr (List.mem_cons_of_mem _ hr')

/-- Every record of a Go slice `l[lo:hi]` is a record of `l`. -/
lemma goSlice_mem (l : History) (lo hi : Int) (subset : History)
    (h : goSlice l lo hi = some subset) : ∀ r ∈ subset, r ∈ l := by
  intro r hr
  simp only [goSlice] at h
  split at h
  · obtain rfl := Option.some.inj h
    have h₁ : List.Sublist ((l.drop lo.toNat).take (hi - lo).toNat) (l.drop lo.toNat) :=
      List.take_sublist _ _
    have h₂ : List.Sublist (l.drop lo.toNat) l := List.drop_sublist _ _
    exact (h₁.trans h₂).mem hr
  · exact absurd h (by simp)

/-- The repetition test reads only the `Status` and `Info` fields: it is
determined by the status/info projections of its two arguments. -/
lemma isRepetition_congr : ∀ s b s' b' : History,
    s.map (fun r => (r.Status, r.Info)) = s'.map (fun r => (r.Status, r.Info)) →
    b.map (fun r => (r.Status, r.Info)) = b'.map (fun r => (r.Status, r.Info)) →
    isRepetition s b = isRepetition s' b' := by
  intro s
  induction s with
  | nil =>
    intro b s' b' hs hb
    cases s' with
    | nil => simp [isRepetition]
    | cons a' as' => simp at hs
  | cons a as ih =>
    intro b s' b' hs hb
    cases s' with
    | nil => simp at hs
    | cons a' as' =>
      simp only [List.map_cons, List.cons.injEq, Prod.mk.injEq] at hs
      obtain ⟨⟨hst, hin⟩, hs'⟩ := hs
      cases b with
      | nil =>
        cases b' with
        | nil => simp [isRepetition]
        | cons c' cs' => simp at hb
      | cons c cs =>
        cases b' with
        | nil => simp at hb
        | cons c' cs' =>
          simp only [List.map_cons, List.cons.injEq, Prod.mk.injEq] at hb
          obtain ⟨⟨hcs, hci⟩, hb'⟩ := hb
          have h1 : sameStatusInfo a c = sameStatusInfo a' c' := by
            simp [sameStatusInfo, hst, hin, hcs, hci]
          have h2 : isRepetition as cs = isRepetition as' cs' := ih cs as' cs' hs' hb'
          simp only [isRepetition, List.zip_cons_cons, List.all_cons] at h2 ⊢
          rw [h1, h2]

/-- Invariant of the walk: the buffer always holds input records, and every
record of the accumulated result is an input record or a repetition marker
`repeatRecord now cycleSize rep` with a positive count. -/
lemma squashWalk_mem (now : Int) (statuses : History) (c : Int) :
    ∀ (fuel : Nat) (st st' : WalkState),
      squashWalk now statuses c fuel st = some (.ok st') →
      (∀ r ∈ st.buffer, r ∈ statuses) →
      (∀ r ∈ st.result, r ∈ statuses ∨ ∃ rep : Nat, 0 < rep ∧ r = repeatRecord now c rep) →
      (∀ r ∈ st'.buffer, r ∈ statuses) ∧
      (∀ r ∈ st'.result, r ∈ statuses ∨ ∃ rep : Nat, 0 < rep ∧ r = repeatRecord now c rep) := by
  intro fuel
  induction fuel with
  | zero =>
    intro st st' h
    simp [squashWalk] at h
  | succ fuel ih =>
    intro st st' h hb hr
    by_cases h1 : st.i < (statuses.length : Int)
    · by_cases h2 : st.i + c > (statuses.length : Int)
      · rw [squashWalk_break now statuses c fuel st h1 h2] at h
        obtain rfl := WalkOut.ok.inj (Option.some.inj h)
        exact ⟨hb, hr⟩
      · cases hs : goSlice statuses st.i (st.i + c) with
        | none =>
          have hf : squashWalk now statuses c (fuel + 1) st =
              some (.fault "slice bounds out of range") := by
            simp [squashWalk, h1, h2, hs]
          rw [hf] at h
          exact WalkOut.noConfusion (Option.some.inj h)
        | some subset =>
          by_cases h4 : isRepetition subset st.buffer = true
          · rw [squashWalk_rep now statuses c fuel st subset h1 h2 hs h4] at h
            exact ih _ st' h hb hr
          · have h4' : isRepetition subset st.buffer = false := by
              cases hh : isRepetition subset st.buffer
              · rfl
              · exact absurd hh h4
            have hsubset := goSlice_mem statuses st.i (st.i + c) subset hs
            by_cases h5 : 0 < st.rep
            · cases hp : pushAll st.buffer subset with
              | none =>
                have hf : squashWalk now statuses c (fuel + 1) st =
                    some (.fault "index out of range") := by
                  simp [squashWalk, h1, h2, hs, h4', h5, hp]
                rw [hf] at h
                exact WalkOut.noConfusion (Option.some.inj h)
              | some p =>
                obtain ⟨evicted, buffer₁⟩ := p
                rw [squashWalk_flush now statuses c fuel st subset evicted buffer₁
                      h1 h2 hs h4' h5 hp] at h
                obtain ⟨hev, hbuf⟩ := pushAll_mem subset st.buffer evicted buffer₁ hp
                refine ih _ st' h ?_ ?_
                · intro r hr'
                  rcases hbuf r hr' with h' | h'
                  · exact hb r h'
                  · exact hsubset r h'
                · intro r hr'
                  rcases List.mem_append.1 hr' with hr' | hr'
                  · rcases List.mem_append.1 hr' with hr'' | hr''
                    · exact hr r hr''
                    · rcases hev r hr'' with h' | h'
                      · exact Or.inl (hb r h')
                      · exact Or.inl (hsubset r h')
                  · simp only [List.mem_singleton] at hr'
                    exact Or.inr ⟨st.rep, h5, hr'⟩
            · have h5' : st.rep = 0 := Nat.eq_zero_of_not_pos h5
              cases hg : statuses[st.i.toNat]? with
              | none =>
                have hf : squashWalk now statuses c (fuel + 1) st =
                    some (.fault "index out of range") := by
                  simp [squashWalk, h1, h2, hs, h4', h5', hg]
                rw [hf] at h
                exact WalkOut.noConfusion (Option.some.inj h)
              | some cur =>
                cases hp : push st.buffer cur with
                | none =>
                  have hf : squashWalk now statuses c (fuel + 1) st =
                      some (.fault "index out of range") := by
                    simp [squashWalk, h1, h2, hs, h4', h5', hg, hp]
                  rw [hf] at h
                  exact WalkOut.noConfusion (Option.some.inj h)
                | some p =>
                  obtain ⟨old, buffer₁⟩ := p
                  rw [squashWalk_push now statuses c fuel st subset cur old buffer₁
                        h1 h2 hs h4' h5' hg hp] at h
                  obtain ⟨hold, hbuf⟩ := push_mem st.buffer cur old buffer₁ hp
                  have hcur : cur ∈ statuses := by
                    obtain ⟨hn, rfl⟩ := List.getElem?_eq_some.1 hg
                    exact List.getElem_mem hn
                  refine ih _ st' h ?_ ?_
                  · intro r hr'
                    rcases hbuf r hr' with h' | h'
                    · exact hb r h'
                    · exact h' ▸ hcur
                  · intro r hr'
                    rcases List.mem_append.1 hr' with hr'' | hr''
                    · exact hr r hr''
                    · simp only [List.mem_singleton] at hr''
                      exact Or.inl (hr'' ▸ hb old hold)
    · rw [squashWalk_done now statuses c fuel st h1] at h
      obtain rfl := WalkOut.ok.inj (Option.some.inj h)
      exact ⟨hb, hr⟩

/-- How `SquashLogs` assembles its output from the final state of the walk:
the emitted result, then the flushed buffer, then the final repetition marker
when `repeat > 0`, then `statuses[i+1:]` when `i < len(statuses)-1`. -/
lemma squashLogs_assemble (now : Int) (statuses : History) (c : Int) (st : WalkState)
    (hlen : ¬ (statuses.length : Int) ≤ c)
    (hw : squashWalk now statuses c (statuses.length + 1)
      { buffer := statuses.take c.toNat, result := [], rep := 0, i := c } = some (.ok st)) :
    SquashLogs now statuses c =
      some ((st.result ++ st.buffer)
        ++ (if 0 < st.rep then [repeatRecord now c st.rep] else [])
        ++ (if st.i < (statuses.length : Int) - 1 then statuses.drop (st.i + 1).toNat
            else [])) := by
  simp only [SquashLogs, if_neg hlen, hw]
  by_cases h5 : 0 < st.rep <;> by_cases hi : st.i < (statuses.length : Int) - 1 <;>
    simp [h5, hi, List.append_assoc]

/-! ### Concrete records used by the example-based theorems and witnesses -/

def recActive : DetailedStatus := mkRec "active" "a" (some 1)

def recBlocked : DetailedStatus := mkRec "blocked" "b" (some 2)

def recWaiting : DetailedStatus := mkRec "waiting" "c" (some 3)

def recDown : DetailedStatus := mkRec "down" "d" (some 4)

def recFailed : DetailedStatus := mkRec "error" "e" (some 5)

def scRec1 : DetailedStatus := mkRec "executing" "x" (some 10)

def scRec2 : DetailedStatus := mkRec "idle" "y" (some 11)

def scRec3 : DetailedStatus := mkRec "executing" "x" (some 12)

def scRec4 : DetailedStatus := mkRec "idle" "y" (some 13)

def scRec5 : DetailedStatus := mkRec "error" "boom" (some 14)

def scRec6 : DetailedStatus := mkRec "active" "ok" (some 15)

def scRec7 : DetailedStatus := mkRec "blocked" "z" (some 16)

def scRec8 : DetailedStatus := mkRec "maintenance" "m" (some 17)

def winA : DetailedStatus := mkRec "allocating" "wa" (some 41)

def winB : DetailedStatus := mkRec "running" "wb" (some 42)

def winC : DetailedStatus := mkRec "stopped" "wc" (some 43)

def winD : DetailedStatus := mkRec "destroying" "wd" (some 44)

def wP : DetailedStatus := mkRec "active" "p" (some 20)

def wQ : DetailedStatus := mkRec "idle" "q" (some 21)

def vPlain : DetailedStatus := mkRec "executing" "hook" (some 100)

/-- A record that agrees with `vPlain` on `Status` and `Info` but differs in
every other field (`Data`, `Since`, `Kind`, `Version`, `Life`, `Err`). -/
def vNoisy : DetailedStatus :=
  { Status := "executing"
    Info := "hook"
    Data := [("k", "v")]
    Since := some 999
    Kind := "unit"
    Version := "2"
    Life := "alive"
    Err := some "boom" }

/-! ### Claim theorems -/

/-- C1: the claim says that a run with zero detected repetitions returns the
input exactly.  The code refutes it for `cycleSize ≥ 2`: on three pairwise
distinct records with `cycleSize = 2` the walk stops at once (no chunk is
ever compared, so zero repetitions are detected), and the trailing append
`statuses[i+1:]`, guarded by `i < len(statuses)-1`, drops the record at
index `i`: the output is only the flushed buffer, missing the last record. -/
theorem squashLogs_zero_repetitions_drops_record :
    SquashLogs 0 [recActive, recBlocked, recWaiting] 2 = some [recActive, recBlocked] ∧
    ([recActive, recBlocked] : History) ≠ [recActive, recBlocked, recWaiting] := by
  decide

/-- C3: the claim says every leftover record of a trailing partial chunk is
appended verbatim.  The code appends `statuses[i+1:]` instead of
`statuses[i:]` (guard `i < len(statuses)-1`), so the first leftover record is
always dropped: with `cycleSize = 3` and five pairwise distinct records the
walk breaks at `i = 3`, the two leftovers are `recDown, recFailed`, and only
`recFailed` reaches the output. -/
theorem squashLogs_partial_chunk_dropped :
    SquashLogs 0 [recActive, recBlocked, recWaiting, recDown, recFailed] 3 =
      some [recActive, recBlocked, recWaiting, recFailed] := by
  decide

/-- C2 (counterexample): for the claimed scenario — 8 records where records
3 and 4 repeat records 1 and 2 on status and info, no other chunk repeats,
`cycleSize = 2` — the code does not return
`[rec1, rec2, rec3, rec4, marker, rec7, rec8]`.  The first four conjuncts
verify that the concrete input satisfies the scenario's premises. -/
theorem squashLogs_concrete_scenario_counterexample :
    sameStatusInfo scRec3 scRec1 = true ∧
    sameStatusInfo scRec4 scRec2 = true ∧
    isRepetition [scRec5, scRec6] [scRec1, scRec2] = false ∧
    isRepetition [scRec7, scRec8] [scRec5, scRec6] = false ∧
    SquashLogs 0 [scRec1, scRec2, scRec3, scRec4, scRec5, scRec6, scRec7, scRec8] 2 ≠
      some [scRec1, scRec2, scRec3, scRec4, repeatRecord 0 2 1, scRec7, scRec8] := by
  decide

/-- C2 (amended): for every such 8-record input the code returns
`[rec1, rec2, marker "last 2 statuses repeated 1 times", rec5, rec6, rec7]`:
the repeated chunk (records 3 and 4) is squashed away, the marker follows the
two records evicted while pushing the non-matching chunk (records 1 and 2),
and record 8 is dropped by the trailing-append off-by-one. -/
theorem squashLogs_concrete_scenario_amended
    (now : Int) (r1 r2 r3 r4 r5 r6 r7 r8 : DetailedStatus)
    (h3 : sameStatusInfo r3 r1 = true) (h4 : sameStatusInfo r4 r2 = true)
    (h56 : isRepetition [r5, r6] [r1, r2] = false)
    (h78 : isRepetition [r7, r8] [r5, r6] = false) :
    SquashLogs now [r1, r2, r3, r4, r5, r6, r7, r8] 2 =
      some [r1, r2, repeatRecord now 2 1, r5, r6, r7] := by
  have hrep34 : isRepetition [r3, r4] [r1, r2] = true := by
    simp [isRepetition, h3, h4]
  have step1 : squashWalk now [r1, r2, r3, r4, r5, r6, r7, r8] 2 9
      ⟨[r1, r2], [], 0, 2⟩ =
      squashWalk now [r1, r2, r3, r4, r5, r6, r7, r8] 2 8 ⟨[r1, r2], [], 1, 4⟩ :=
    squashWalk_rep now [r1, r2, r3, r4, r5, r6, r7, r8] 2 8 ⟨[r1, r2], [], 0, 2⟩
      [r3, r4] (by simp) (by simp) rfl hrep34
  have step2 : squashWalk now [r1, r2, r3, r4, r5, r6, r7, r8] 2 8
      ⟨[r1, r2], [], 1, 4⟩ =
      squashWalk now [r1, r2, r3, r4, r5, r6, r7, r8] 2 7
        ⟨[r5, r6], [r1, r2, repeatRecord now 2 1], 0, 6⟩ :=
    squashWalk_flush now [r1, r2, r3, r4, r5, r6, r7, r8] 2 7 ⟨[r1, r2], [], 1, 4⟩
      [r5, r6] [r1, r2] [r5, r6] (by simp) (by simp) rfl h56 (by simp) rfl
  have step3 : squashWalk now [r1, r2, r3, r4, r5, r6, r7, r8] 2 7
      ⟨[r5, r6], [r1, r2, repeatRecord now 2 1], 0, 6⟩ =
      squashWalk now [r1, r2, r3, r4, r5, r6, r7, r8] 2 6
        ⟨[r6, r7], [r1, r2, repeatRecord now 2 1, r5], 0, 7⟩ :=
    squashWalk_push now [r1, r2, r3, r4, r5, r6, r7, r8] 2 6
      ⟨[r5, r6], [r1, r2, repeatRecord now 2 1], 0, 6⟩
      [r7, r8] r7 r5 [r6, r7] (by simp) (by simp) rfl h78 rfl rfl rfl
  have step4 : squashWalk now [r1, r2, r3, r4, r5, r6, r7, r8] 2 6
      ⟨[r6, r7], [r1, r2, repeatRecord now 2 1, r5], 0, 7⟩ =
      some (.ok ⟨[r6, r7], [r1, r2, repeatRecord now 2 1, r5], 0, 7⟩) :=
    squashWalk_break now [r1, r2, r3, r4, r5, r6, r7, r8] 2 5
      ⟨[r6, r7], [r1, r2, repeatRecord now 2 1, r5], 0, 7⟩ (by simp) (by simp)
  have hw := (step1.trans (step2.trans (step3.trans step4)))
  rw [squashLogs_assemble now [r1, r2, r3, r4, r5, r6, r7, r8] 2
    ⟨[r6, r7], [r1, r2, repeatRecord now 2 1, r5], 0, 7⟩ (by simp) hw]
  simp

/-- C2 (amended, witness): the amended theorem applied to a concrete
instance of the scenario. -/
theorem squashLogs_concrete_scenario_amended_witness :
    SquashLogs 0 [scRec1, scRec2, scRec3, scRec4, scRec5, scRec6, scRec7, scRec8] 2 =
      some [scRec1, scRec2, repeatRecord 0 2 1, scRec5, scRec6, scRec7] :=
  squashLogs_concrete_scenario_amended 0 scRec1 scRec2 scRec3 scRec4 scRec5 scRec6
    scRec7 scRec8 (by decide) (by decide) (by decide) (by decide)

/-- C4: `Validate` succeeds iff exactly one of `Size > 0`,
`FromDate ≠ nil`, `Delta ≠ nil` holds; when none holds it fails with the
"missing filter parameters" error; when more than one holds it fails naming
the conflicting pair ("Size and Date together" also covers all three set, as
that `switch` case fires first); `Exclude` never influences the result. -/
theorem validate_exactly_one_selector (f : StatusHistoryFilter) :
    (Validate f = none ↔
      ((0 < f.Size ∧ f.FromDate = none ∧ f.Delta = none) ∨
       (¬ 0 < f.Size ∧ f.FromDate.isSome = true ∧ f.Delta = none) ∨
       (¬ 0 < f.Size ∧ f.FromDate = none ∧ f.Delta.isSome = true))) ∧
    (¬ 0 < f.Size → f.FromDate = none → f.Delta = none →
      Validate f = some (.notValid "missing filter parameters")) ∧
    (0 < f.Size → f.FromDate.isSome = true →
      Validate f = some (.notValid "Size and Date together")) ∧
    (0 < f.Size → f.FromDate = none → f.Delta.isSome = true →
      Validate f = some (.notValid "Size and Delta together")) ∧
    (¬ 0 < f.Size → f.FromDate.isSome = true → f.Delta.isSome = true →
      Validate f = some (.notValid "Date and Delta together")) ∧
    (∀ ex : List String, Validate { f with Exclude := ex } = Validate f) := by
  obtain ⟨sz, fd, dl, ex⟩ := f
  cases fd <;> cases dl <;> by_cases hsz : 0 < sz <;>
    simp [Validate, hsz]

/-- C4 (witness): the validation theorem applied to concrete filters. -/
theorem validate_exactly_one_selector_witness :
    Validate ⟨5, none, none, []⟩ = none ∧
    Validate ⟨0, some 2, some 3, []⟩ = some (.notValid "Date and Delta together") :=
  ⟨(validate_exactly_one_selector ⟨5, none, none, []⟩).1.mpr
      (Or.inl ⟨by decide, rfl, rfl⟩),
   (validate_exactly_one_selector ⟨0, some 2, some 3, []⟩).2.2.2.2.1
      (by decide) rfl rfl⟩

/-- C5: `push` on a non-empty window returns the element at index 0, shifts
every remaining element one position toward index 0 with the new record in
the last slot, and preserves the window length; concretely on the 3-capacity
window `[winA, winB, winC]` with new record `winD` it returns `winA` and
leaves `[winB, winC, winD]`. -/
theorem push_evicts_oldest :
    (∀ (a : DetailedStatus) (rest : History) (x : DetailedStatus),
        push (a :: rest) x = some (a, rest ++ [x]) ∧
        (rest ++ [x]).length = (a :: rest).length) ∧
    push [winA, winB, winC] winD = some (winA, [winB, winC, winD]) := by
  exact ⟨fun a rest x => ⟨rfl, by simp⟩, by decide⟩

/-- C7: the repetition test of `SquashLogs` holds iff every chunk record
matches the corresponding buffer record on `Status` and `Info`, and it is
invariant under changing any other field (`Data`, `Since`, `Kind`,
`Version`, `Life`, `Err`) of any record involved. -/
theorem isRepetition_status_info_only
    (subset buffer subset' buffer' : History)
    (hs : subset.map (fun r => (r.Status, r.Info)) =
      subset'.map (fun r => (r.Status, r.Info)))
    (hb : buffer.map (fun r => (r.Status, r.Info)) =
      buffer'.map (fun r => (r.Status, r.Info))) :
    (isRepetition subset buffer = true ↔
      ∀ p ∈ List.zip subset buffer, p.1.Status = p.2.Status ∧ p.1.Info = p.2.Info) ∧
    isRepetition subset buffer = isRepetition subset' buffer' := by
  constructor
  · simp [isRepetition, List.all_eq_true, sameStatusInfo, Bool.and_eq_true, beq_iff_eq]
  · exact isRepetition_congr subset buffer subset' buffer' hs hb

/-- C7 (witness): the invariance applied to records that agree only on
status and info: `vNoisy` differs from `vPlain` in `Data`, `Since`, `Kind`,
`Version`, `Life` and `Err`, yet the repetition test is unchanged. -/
theorem isRepetition_status_info_only_witness :
    isRepetition [vPlain] [vPlain] = isRepetition [vNoisy] [vNoisy] ∧
    isRepetition [vNoisy] [vNoisy] = true :=
  ⟨(isRepetition_status_info_only [vPlain] [vPlain] [vNoisy] [vNoisy]
      (by decide) (by decide)).2,
   by decide⟩

/-- C8: whenever `len(statuses) ≤ cycleSize`, `SquashLogs` takes the
short-circuit and returns the input unchanged; in particular
`cycleSize = len(statuses)` always does. -/
theorem squashLogs_short_circuit (now : Int) (statuses : History) (cycleSize : Int)
    (h : (statuses.length : Int) ≤ cycleSize) :
    SquashLogs now statuses cycleSize = some statuses ∧
    SquashLogs now statuses (statuses.length : Int) = some statuses := by
  constructor
  · simp [SquashLogs, h]
  · simp [SquashLogs]

/-- C8 (witness): the short-circuit theorem applied to a concrete call. -/
theorem squashLogs_short_circuit_witness :
    SquashLogs 3 [recActive, recBlocked] 5 = some [recActive, recBlocked] :=
  (squashLogs_short_circuit 3 [recActive, recBlocked] 5 (by decide)).1

/-- C9: `push` on an empty window does fail immediately (a Go index-out-of-
range panic, modelled as `none`), and a negative `cycleSize` does fail
immediately (a Go slice-bounds panic); but with `cycleSize = 0` on a
non-empty input the claim fails: the chunk is the empty slice, which always
counts as a repetition, so the loop repeats at the same index forever — the
walk reaches no exit under any amount of fuel instead of failing fast. -/
theorem squash_precondition_failure_modes :
    (∀ x : DetailedStatus, push [] x = none) ∧
    (∀ fuel rep : Nat,
      squashWalk 0 [recWaiting] 0 fuel
        { buffer := [], result := [], rep := rep, i := 0 } = none) ∧
    squashWalk 0 [recActive, recBlocked] (-1) 1
      { buffer := [], result := [], rep := 0, i := -1 } =
      some (.fault "slice bounds out of range") := by
  refine ⟨fun x => rfl, ?_, by decide⟩
  intro fuel
  induction fuel with
  | zero => intro rep; rfl
  | succ fuel ih =>
    intro rep
    have hstep : squashWalk 0 [recWaiting] 0 (fuel + 1) ⟨[], [], rep, 0⟩ =
        squashWalk 0 [recWaiting] 0 fuel ⟨[], [], rep + 1, 0⟩ :=
      squashWalk_rep 0 [recWaiting] 0 fuel ⟨[], [], rep, 0⟩ []
        (by simp) (by simp) rfl rfl
    rw [hstep]
    exact ih (rep + 1)

/-- C10: `HistoryKind.Valid` accepts exactly the seven kinds that are the
keys of `AllHistoryKind` ("unit", "juju-unit", "workload", "machine",
"juju-machine", "container", "juju-container"), "workload" is valid,
"bogus" is not, and every description is non-empty. -/
theorem historyKind_valid_iff_allHistoryKind :
    (∀ k : HistoryKind, HistoryKind.Valid k = true ↔ k ∈ AllHistoryKind.map Prod.fst) ∧
    HistoryKind.Valid KindWorkload = true ∧
    HistoryKind.Valid "bogus" = false ∧
    AllHistoryKind.map Prod.fst =
      [KindUnit, KindUnitAgent, KindWorkload, KindMachineInstance, KindMachine,
       KindContainerInstance, KindContainer] ∧
    AllHistoryKind.length = 7 ∧
    ∀ p ∈ AllHistoryKind, p.2 ≠ "" := by
  refine ⟨?_, by decide, by decide, by decide, by decide, by decide⟩
  intro k
  simp [HistoryKind.Valid, AllHistoryKind, KindUnit, KindUnitAgent, KindWorkload,
    KindMachineInstance, KindMachine, KindContainerInstance, KindContainer,
    Bool.or_eq_true, beq_iff_eq]
  tauto

/-- C6: every record emitted by `SquashLogs` is either an input record or a
synthetic marker `repeatRecord now cycleSize rep` with a positive repeat
count; such a marker has status `Idle`, info exactly
"last {cycleSize} statuses repeated {rep} times", and `Since` equal to the
clock value `now` captured at compaction time — a parameter independent of
every input record.  When the walk terminates with `repeat > 0`, the output
is the walk's result, then the flushed buffer, then one final marker, then
the trailing append; and when a run of repetitions ends at a non-matching
chunk, one marker is appended right after the records evicted while pushing
that chunk through the buffer. -/
theorem squashLogs_marker_shape
    (now : Int) (statuses : History) (c : Int) (out : History)
    (h : SquashLogs now statuses c = some out) :
    (∀ r ∈ out, r ∈ statuses ∨ ∃ rep : Nat, 0 < rep ∧ r = repeatRecord now c rep) ∧
    (∀ rep : Nat,
      (repeatRecord now c rep).Status = Idle ∧
      (repeatRecord now c rep).Info =
        "last " ++ toString c ++ " statuses repeated " ++ toString rep ++ " times" ∧
      (repeatRecord now c rep).Since = some now) ∧
    (∀ st : WalkState,
      squashWalk now statuses c (statuses.length + 1)
        { buffer := statuses.take c.toNat, result := [], rep := 0, i := c } =
          some (.ok st) →
      0 < st.rep → ¬ (statuses.length : Int) ≤ c →
      out = st.result ++ st.buffer ++ [repeatRecord now c st.rep]
              ++ (if st.i < (statuses.length : Int) - 1 then
                    statuses.drop (st.i + 1).toNat
                  else [])) ∧
    (∀ (fuel : Nat) (st : WalkState) (subset evicted buffer₁ : History),
      st.i < (statuses.length : Int) → ¬ st.i + c > (statuses.length : Int) →
      goSlice statuses st.i (st.i + c) = some subset →
      isRepetition subset st.buffer = false → 0 < st.rep →
      pushAll st.buffer subset = some (evicted, buffer₁) →
      squashWalk now statuses c (fuel + 1) st =
        squashWalk now statuses c fuel
          { buffer := buffer₁
            result := st.result ++ evicted ++ [repeatRecord now c st.rep]
            rep := 0
            i := st.i + c }) := by
  refine ⟨?_, fun rep => ⟨rfl, rfl, rfl⟩, ?_, ?_⟩
  · by_cases hlen : (statuses.length : Int) ≤ c
    · have h' : statuses = out := by
        simpa [SquashLogs, hlen] using h
      subst h'
      intro r hrr
      exact Or.inl hrr
    · cases hw : squashWalk now statuses c (statuses.length + 1)
          { buffer := statuses.take c.toNat, result := [], rep := 0, i := c } with
      | none =>
        have hnone : SquashLogs now statuses c = none := by
          simp [SquashLogs, hlen, hw]
        rw [hnone] at h
        exact absurd h (by simp)
      | some w =>
        cases w with
        | fault msg =>
          have hnone : SquashLogs now statuses c = none := by
            simp [SquashLogs, hlen, hw]
          rw [hnone] at h
          exact absurd h (by simp)
        | ok st =>
          rw [squashLogs_assemble now statuses c st hlen hw] at h
          have h' := Option.some.inj h
          subst h'
          obtain ⟨hbuf, hres⟩ := squashWalk_mem now statuses c (statuses.length + 1)
            { buffer := statuses.take c.toNat, result := [], rep := 0, i := c } st hw
            (fun r hr => (List.take_sublist _ _).mem hr)
            (fun r hr => absurd hr (List.not_mem_nil r))
          intro r hrr
          rcases List.mem_append.1 hrr with hx | hx
          · rcases List.mem_append.1 hx with hy | hy
            · rcases List.mem_append.1 hy with hz | hz
              · exact hres r hz
              · exact Or.inl (hbuf r hz)
            · split at hy
              · rename_i h5
                simp only [List.mem_singleton] at hy
                exact Or.inr ⟨st.rep, h5, hy⟩
              · exact absurd hy (List.not_mem_nil r)
          · split at hx
            · exact Or.inl ((List.drop_sublist _ _).mem hx)
            · exact absurd hx (List.not_mem_nil r)
  · intro st hst hrep hlen
    rw [squashLogs_assemble now statuses c st hlen hst] at h
    have h' := Option.some.inj h
    subst h'
    rw [if_pos hrep]
  · intro fuel st subset evicted buffer₁ h1 h2 hs h4 h5 hp
    exact squashWalk_flush now statuses c fuel st subset evicted buffer₁ h1 h2 hs h4 h5 hp

/-- C6 (witness): the marker-shape theorem applied to a concrete compaction
(input `[wP, wQ, wQ, wQ]`, `cycleSize = 1`, clock value `7`): the marker in
its output, `repeatRecord 7 1 2`, is characterised by the theorem.  No input
record has `Since = some 7`, so the marker timestamp comes from the clock
parameter, not from the records. -/
theorem squashLogs_marker_shape_witness :
    repeatRecord 7 1 2 ∈ ([wP, wQ, wQ, wQ] : History) ∨
      ∃ rep : Nat, 0 < rep ∧ repeatRecord 7 1 2 = repeatRecord 7 1 rep :=
  (squashLogs_marker_shape 7 [wP, wQ, wQ, wQ] 1 [wP, wQ, repeatRecord 7 1 2]
      (by decide)).1 (repeatRecord 7 1 2) (by decide)

/-- C10 (witness): the enumeration theorem applied to concrete kinds. -/
theorem historyKind_valid_iff_allHistoryKind_witness :
    HistoryKind.Valid KindUnit = true ∧
    (KindUnitAgent, "statuses from the agent that is managing a unit").2 ≠ "" :=
  ⟨(historyKind_valid_iff_allHistoryKind.1 KindUnit).mpr (by decide),
   historyKind_valid_iff_allHistoryKind.2.2.2.2.2 _ (by decide)⟩

end StatusHistory
